import Mathlib

/-!
Verification development for the journalr repository (a password-protected
terminal journal).  The Rust sources under src/ are shallowly embedded:

* `Date` embeds src/date.rs (a wrapper around chrono `NaiveDate` with the
  strict display format "%d-%m-%Y"); chrono is a third-party crate, so its
  formatting/parsing/arithmetic routines are modelled from their documented
  behaviour (zero-padded formatting, padding-lenient parsing, checked
  saturating arithmetic, year range `[-262144, 262143]`).
* `DiaryError`, `readJrnl`, `writeTo`, `checkFormat` embed src/diary.rs and
  src/lib.rs over a symbolic file-store; the cocoon encryption crate and
  serde_json are modelled at the level of their observable outcomes
  (container produced under a password; parse yields the payload exactly
  under the same password, a tag mismatch otherwise; structural
  serialization of the `{ entries: map }` schema).
* `AppSt` with its transition functions embeds the control flow of
  src/app.rs and src/args.rs that touches the entry map, the selected
  date, the mode and the `saved` flag.
* `DateSelection` embeds the date picker of src/ui.rs.
-/

namespace Journalr

/-! ### DateKey: src/date.rs -/

/-- Embeds `Date` of src/date.rs: a calendar day `(year, month, day)`.
The Rust type wraps `chrono::NaiveDate`, which always holds a valid
proleptic-Gregorian date; validity is the predicate `dateValid` below. -/
structure Date where
  year : Int
  month : Nat
  day : Nat
deriving DecidableEq, Repr

/-- chrono `NaiveDate` minimum representable year (`i32::MIN >> 13`). -/
def minYear : Int := -262144

/-- chrono `NaiveDate` maximum representable year (`i32::MAX >> 13`). -/
def maxYear : Int := 262143

/-- Proleptic Gregorian leap-year rule, as used by chrono. -/
def isLeap (y : Int) : Bool := (y % 4 == 0 && y % 100 != 0) || y % 400 == 0

/-- Number of days of month `m` of year `y` (Gregorian). -/
def daysInMonth (y : Int) (m : Nat) : Nat :=
  if m = 2 then (if isLeap y then 29 else 28)
  else if m = 4 || m = 6 || m = 9 || m = 11 then 30
  else 31

/-- The invariant `chrono::NaiveDate` maintains for the wrapped date. -/
def dateValid (d : Date) : Bool :=
  decide (minYear ≤ d.year) && decide (d.year ≤ maxYear) &&
  decide (1 ≤ d.month) && decide (d.month ≤ 12) &&
  decide (1 ≤ d.day) && decide (d.day ≤ daysInMonth d.year d.month)

/-! Decimal digits, shared by the model of chrono formatting and parsing. -/

/-- Numeric value of a decimal digit character. -/
def digitVal (c : Char) : Nat := c.toNat - '0'.toNat

/-- Value of a big-endian list of decimal digit characters. -/
def digitsToNat (ds : List Char) : Nat := ds.foldl (fun a c => a * 10 + digitVal c) 0

/-- Big-endian decimal digit characters of `n`; fuel-structured so that the
kernel can evaluate it.  `natDigits` supplies sufficient fuel. -/
def natDigitsAux : Nat → Nat → List Char
  | 0, _ => []
  | fuel+1, n =>
    if n < 10 then [Nat.digitChar n]
    else natDigitsAux fuel (n / 10) ++ [Nat.digitChar (n % 10)]

/-- Big-endian decimal digit characters of `n` (no padding). -/
def natDigits (n : Nat) : List Char := natDigitsAux (n + 1) n

/-- Digits of `n`, zero-padded on the left to width `w` (chrono `Pad::Zero`). -/
def padDigits (w n : Nat) : List Char :=
  List.replicate (w - (natDigits n).length) '0' ++ natDigits n

/-- Model of chrono formatting of `%Y`: years `0..=9999` print as four
zero-padded digits; all other years print with an explicit sign and at
least four digits. -/
def formatYearChars (y : Int) : List Char :=
  if 0 ≤ y ∧ y < 10000 then padDigits 4 y.toNat
  else (if y < 0 then ['-'] else ['+']) ++ padDigits 4 y.natAbs

/-- Embeds `Display for Date` (src/date.rs, format string "%d-%m-%Y"). -/
def formatDateChars (d : Date) : List Char :=
  padDigits 2 d.day ++ '-' :: (padDigits 2 d.month ++ '-' :: formatYearChars d.year)

/-- Embeds `From<Date> for String` / `Display` of src/date.rs. -/
def dateFormat (d : Date) : String := String.mk (formatDateChars d)

/-- Model of chrono numeric-field scanning: consume at most `w` leading
digit characters (at least one), returning the value and the rest.
chrono does not require zero padding when parsing. -/
def takeDigits : Nat → List Char → List Char × List Char
  | 0, l => ([], l)
  | _+1, [] => ([], [])
  | w+1, c :: rest =>
    if c.isDigit then
      let p := takeDigits w rest
      (c :: p.1, p.2)
    else ([], c :: rest)

/-- Consume all leading digit characters (used after an explicit year sign,
where chrono places no width limit). -/
def takeDigitsAll : List Char → List Char × List Char
  | [] => ([], [])
  | c :: rest =>
    if c.isDigit then
      let p := takeDigitsAll rest
      (c :: p.1, p.2)
    else ([], c :: rest)

/-- Scan a bounded numeric field of at most `w` digits; fails when no digit
is present. -/
def scanNum (w : Nat) (l : List Char) : Option (Nat × List Char) :=
  let p := takeDigits w l
  if p.1.isEmpty then none else some (digitsToNat p.1, p.2)

/-- Scan an unbounded numeric field; fails when no digit is present. -/
def scanNumAll (l : List Char) : Option (Nat × List Char) :=
  let p := takeDigitsAll l
  if p.1.isEmpty then none else some (digitsToNat p.1, p.2)

/-- Model of chrono `%Y` parsing: an optional explicit sign followed by
digits (at most four digits when unsigned). -/
def scanYear (l : List Char) : Option (Int × List Char) :=
  if l.head? = some '-' then (scanNumAll l.tail).map (fun p => (-(p.1 : Int), p.2))
  else if l.head? = some '+' then (scanNumAll l.tail).map (fun p => ((p.1 : Int), p.2))
  else (scanNum 4 l).map (fun p => ((p.1 : Int), p.2))

/-- Expect the literal character `c` at the head of the input. -/
def expectChar (c : Char) : List Char → Option (List Char)
  | [] => none
  | x :: rest => if x = c then some rest else none

/-- Model of chrono `NaiveDate::parse_from_str(value, "%d-%m-%Y")`: day
(at most two digits), literal `-`, month (at most two digits), literal `-`,
year; the whole input must be consumed and the resulting date valid. -/
def parseDateChars (l : List Char) : Option Date := do
  let (dd, r1) ← scanNum 2 l
  let r2 ← expectChar '-' r1
  let (mm, r3) ← scanNum 2 r2
  let r4 ← expectChar '-' r3
  let (yy, r5) ← scanYear r4
  let dt : Date := ⟨yy, mm, dd⟩
  if r5.isEmpty && dateValid dt then some dt else none

/-- Embeds `TryFrom<&str> for Date` (src/date.rs). -/
def dateParse (s : String) : Option Date := parseDateChars s.data

/-! ### Date picker: src/ui.rs, `DateSelection` -/

/-- Embeds `CurrentlySelected` of src/ui.rs. -/
inductive CurrentlySelected where
  | date
  | month
  | year
deriving DecidableEq, Repr

/-- Embeds `DateSelection` of src/ui.rs. -/
structure DateSelection where
  date : Date
  selection : CurrentlySelected
deriving DecidableEq, Repr

/-- Model of chrono `checked_add_days(Days::new(1))`: the next calendar day,
`none` when the result would exceed `NaiveDate::MAX` (December 31 of
`maxYear`). -/
def checkedAddDays1 (d : Date) : Option Date :=
  if d.day < daysInMonth d.year d.month then some { d with day := d.day + 1 }
  else if d.month < 12 then some { d with month := d.month + 1, day := 1 }
  else if d.year < maxYear then some ⟨d.year + 1, 1, 1⟩
  else none

/-- Model of chrono `checked_sub_days(Days::new(1))`: the previous calendar
day, `none` when the result would precede `NaiveDate::MIN` (January 1 of
`minYear`). -/
def checkedSubDays1 (d : Date) : Option Date :=
  if 1 < d.day then some { d with day := d.day - 1 }
  else if 1 < d.month then some { d with month := d.month - 1, day := daysInMonth d.year (d.month - 1) }
  else if minYear < d.year then some ⟨d.year - 1, 12, 31⟩
  else none

/-- Model of chrono `checked_add_months(Months::new(1))`: same day in the
next month, clamped to that month's length; `none` when the target month
lies beyond the representable range. -/
def checkedAddMonths1 (d : Date) : Option Date :=
  if d.month < 12 then
    some { d with month := d.month + 1, day := min d.day (daysInMonth d.year (d.month + 1)) }
  else if d.year < maxYear then some ⟨d.year + 1, 1, min d.day 31⟩
  else none

/-- Model of chrono `checked_sub_months(Months::new(1))`. -/
def checkedSubMonths1 (d : Date) : Option Date :=
  if 1 < d.month then
    some { d with month := d.month - 1, day := min d.day (daysInMonth d.year (d.month - 1)) }
  else if minYear < d.year then some ⟨d.year - 1, 12, min d.day 31⟩
  else none

/-- Model of chrono `checked_add_months(Months::new(12))`: same month and
day one year later, day clamped (February 29 becomes February 28). -/
def checkedAddMonths12 (d : Date) : Option Date :=
  if d.year < maxYear then
    some ⟨d.year + 1, d.month, min d.day (daysInMonth (d.year + 1) d.month)⟩
  else none

/-- Model of chrono `checked_sub_months(Months::new(12))`. -/
def checkedSubMonths12 (d : Date) : Option Date :=
  if minYear < d.year then
    some ⟨d.year - 1, d.month, min d.day (daysInMonth (d.year - 1) d.month)⟩
  else none

/-- The checked adjustment `increment_selected` applies to the current
field (src/ui.rs lines 149-173). -/
def incAdjusted (s : DateSelection) : Option Date :=
  match s.selection with
  | .date => checkedAddDays1 s.date
  | .month => checkedAddMonths1 s.date
  | .year => checkedAddMonths12 s.date

/-- The checked adjustment `decrement_selected` applies to the current
field (src/ui.rs lines 174-198). -/
def decAdjusted (s : DateSelection) : Option Date :=
  match s.selection with
  | .date => checkedSubDays1 s.date
  | .month => checkedSubMonths1 s.date
  | .year => checkedSubMonths12 s.date

/-- Embeds `DateSelection::increment_selected` (src/ui.rs): the checked
result, or the date unchanged (`unwrap_or(*self.date)`). -/
def incrementSelected (s : DateSelection) : DateSelection :=
  { s with date := (incAdjusted s).getD s.date }

/-- Embeds `DateSelection::decrement_selected` (src/ui.rs). -/
def decrementSelected (s : DateSelection) : DateSelection :=
  { s with date := (decAdjusted s).getD s.date }

/-! ### EntryModel conversions: src/diary.rs lines 83-108

A tui_textarea `TextArea` buffer is modelled by its list of lines (its
`lines()` view; `TextArea::from(iterator)` builds a buffer holding exactly
the yielded lines).  Entry text ("Rust `String`") is a list of characters. -/

/-- Entry text as stored in a `Diary` (a Rust `String`). -/
abbrev EntryText := List Char

/-- Embeds the per-entry body of `From<&HashMap<Date, TextArea>> for Diary`:
`v.lines().iter().flat_map(|k| [k, "\n"]).collect::<String>()` — every
line, including the last, is followed by a newline. -/
def bufferToText (lines : List (List Char)) : EntryText :=
  (lines.map (fun l => l ++ ['\n'])).flatten

/-- Model of Rust `str::split('\n')`: the (non-empty) list of segments
between newline characters; a trailing newline yields a final empty
segment, and an empty string yields one empty segment. -/
def splitNl : List Char → List (List Char)
  | [] => [[]]
  | c :: rest =>
    if c = '\n' then [] :: splitNl rest
    else
      match splitNl rest with
      | [] => [[c]]
      | l :: ls => (c :: l) :: ls

/-- Embeds `From<&HashMap<Date, TextArea>> for Diary` (src/diary.rs 83-100)
on the underlying association list: each buffer becomes its lines joined
with a newline appended after every line. -/
def entriesToDiary (m : List (Date × List (List Char))) : List (Date × EntryText) :=
  m.map (fun p => (p.1, bufferToText p.2))

/-- Embeds `From<Diary> for HashMap<Date, TextArea>` (src/diary.rs 101-108):
each entry text is split on newlines into buffer lines
(`TextArea::from(v.split('\n'))`). -/
def diaryToEntries (d : List (Date × EntryText)) : List (Date × List (List Char)) :=
  d.map (fun p => (p.1, splitNl p.2))

/-! ### DiaryStore: src/diary.rs and src/lib.rs

File I/O, the cocoon encryption container and serde_json are external to
the repository; they are modelled by a symbolic per-path file state and by
the observable outcomes documented for `Cocoon::parse`/`Cocoon::dump`
(authenticated encryption: parsing a container yields exactly the dumped
payload under the dumping password and a `Cryptography` tag-mismatch error
otherwise; a too-short or unrecognized header fails before decryption;
a declared size above the cap fails with `TooLarge` before decryption). -/

/-- Relevant `std::io::ErrorKind` values: `NotFound` against everything
else, which is all the conversion in src/diary.rs lines 25-33 inspects. -/
inductive IoKind where
  | notFound
  | permissionDenied
  | other
deriving DecidableEq, Repr

/-- Embeds `DiaryError` of src/diary.rs lines 7-14 (named
`DiaryFromFileError` at its use sites in src/lib.rs and src/app.rs). -/
inductive DiaryError where
  | WrongPassword
  | InvalidFormat
  | OutOfRangeSize
  | NotFound
  | NotAccessible
deriving DecidableEq, BEq, Repr

/-- Embeds `From<io::Error> for DiaryError` (src/diary.rs lines 25-33). -/
def ioToDiaryError : IoKind → DiaryError
  | .notFound => .NotFound
  | _ => .NotAccessible

/-- Embeds `cocoon::Error` (the five variants matched in src/diary.rs). -/
inductive CocoonError where
  | io (k : IoKind)
  | unrecognizedFormat
  | tooShort
  | cryptography
  | tooLarge
deriving DecidableEq, Repr

/-- Embeds `From<cocoon::Error> for DiaryError` (src/diary.rs lines 15-24). -/
def cocoonToDiaryError : CocoonError → DiaryError
  | .io k => ioToDiaryError k
  | .unrecognizedFormat => .InvalidFormat
  | .tooShort => .InvalidFormat
  | .cryptography => .WrongPassword
  | .tooLarge => .OutOfRangeSize

/-- Decrypted payload of a container, against the serde_json schema
`{ entries: mapping<date-string, entry-text> }`: either a serialized
entries mapping or content that fails that schema. -/
inductive JsonPayload where
  | entriesObj (l : List (String × EntryText))
  | invalid
deriving DecidableEq, Repr

/-- Symbolic state of one path of the file system, by observable outcome:
no file (`File::open` fails with kind `NotFound`), an inaccessible file
(any other open-time I/O error kind), a file whose container header is
truncated or unrecognized — a zero-byte file included — (cocoon `TooShort`
/ `UnrecognizedFormat`), a file whose declared size exceeds the cap
(cocoon `TooLarge`, raised before any decryption), a well-formed container
dumped under a password, or a container whose ciphertext/tag was corrupted
(tag mismatch under every password). -/
inductive FileState where
  | absent
  | inaccessible
  | rawInvalid (truncated : Bool)
  | rawTooLarge
  | container (pw : String) (payload : JsonPayload)
  | corrupted (pw : String)
deriving DecidableEq, Repr

/-- Point update of the symbolic file system. -/
def updateFs (fs : String → FileState) (path : String) (st : FileState) :
    String → FileState :=
  fun q => if q = path then st else fs q

/-- Model of serde_json deserialization of the `entries` mapping: each key
is converted through `TryFrom<String> for Date`; the first failing key
fails the whole parse. -/
def parseEntriesList : List (String × EntryText) → Option (List (Date × EntryText))
  | [] => some []
  | (k, v) :: rest =>
    match dateParse k with
    | none => none
    | some dk =>
      match parseEntriesList rest with
      | none => none
      | some tl => some ((dk, v) :: tl)

/-- Model of serde_json serialization of `Diary`: each `Date` key through
`From<Date> for String` (the strict display form). -/
def serializeEntries (d : List (Date × EntryText)) : List (String × EntryText) :=
  d.map (fun p => (dateFormat p.1, p.2))

/-- Embeds `Diary::read_jrnl` (src/diary.rs lines 68-73): open the file,
`cocoon.parse` it, decode the payload, mapping every failure through the
`From` conversions of lines 15-39. -/
def readJrnl (fs : String → FileState) (path password : String) :
    Except DiaryError (List (Date × EntryText)) :=
  match fs path with
  | .absent => .error (ioToDiaryError .notFound)
  | .inaccessible => .error (ioToDiaryError .other)
  | .rawInvalid truncated =>
      .error (cocoonToDiaryError (if truncated then .tooShort else .unrecognizedFormat))
  | .rawTooLarge => .error (cocoonToDiaryError .tooLarge)
  | .corrupted _ => .error (cocoonToDiaryError .cryptography)
  | .container pw payload =>
    if password = pw then
      match payload with
      | .invalid => .error .InvalidFormat
      | .entriesObj l =>
        match parseEntriesList l with
        | none => .error .InvalidFormat
        | some entries => .ok entries
    else .error (cocoonToDiaryError .cryptography)

/-- Embeds `Diary::write_to` (src/diary.rs lines 74-81).  The I/O outcomes
of `File::create` and of `cocoon.dump` are inputs of the model (`none`
means success); the result pairs the updated file system with the value
`write_to` returns. -/
def writeTo (fs : String → FileState) (d : List (Date × EntryText))
    (path password : String) (createErr dumpErr : Option IoKind) :
    (String → FileState) × Except DiaryError Unit :=
  match createErr with
  | some k => (fs, .error (ioToDiaryError k))
  | none =>
    match dumpErr with
    | some k => (updateFs fs path (.rawInvalid true), .error (cocoonToDiaryError (.io k)))
    | none => (updateFs fs path (.container password (.entriesObj (serializeEntries d))), .ok ())

/-- Embeds `check_format` (src/lib.rs lines 14-17):
`res.is_ok() || res.is_err_and(|e| !(e == DiaryFromFileError::WrongPassword))`. -/
def checkFormat (fs : String → FileState) (path : String) : Bool :=
  let res := readJrnl fs path ""
  res.isOk ||
    (match res with
     | .error e => !(e == DiaryError.WrongPassword)
     | .ok _ => false)

/-! ### ControlStateMachine: src/app.rs and src/args.rs

The app state is projected onto what the claims observe: the path, the
selected date, the set of dates holding a buffer (`entries.keys()`), the
mode, the `saved` flag and the password.  Buffer contents, drawing and the
blocking input loops are external; each interactive outcome (which key was
chosen, what a load returned) is an input of the transition. -/

/-- Embeds `AppMode` (src/app.rs lines 35-43). -/
inductive AppMode where
  | Edit
  | AskToSave
  | Password
  | Exit
  | SetDate
  | Delete
  | GetFile
deriving DecidableEq, Repr

/-- Projection of `App` (src/app.rs lines 49-57) onto the claim-relevant
fields; `entryKeys` is the key set of the `entries` map. -/
structure AppSt where
  path : String
  date : Date
  entryKeys : List Date
  mode : AppMode
  saved : Bool
  password : String
deriving DecidableEq, Repr

/-- Key-set effect of `HashMap::entry(k).or_insert(..)`: insert `k` if
absent, keep the map unchanged otherwise. -/
def insertKey (d : Date) (ks : List Date) : List Date :=
  if d ∈ ks then ks else d :: ks

/-- Effect of `App::save` (src/app.rs lines 88-92) on the `saved` flag:
`if write_to(..).is_ok() { self.saved = true }` — set on success, left
unchanged on failure (the error value itself is dropped there). -/
def appSaveResult (r : Except DiaryError Unit) (saved : Bool) : Bool :=
  if r.isOk then true else saved

/-- Events one iteration of the `edit_view` loop (src/app.rs lines 141-189)
distinguishes: the four intercepted control keys, or any other event
forwarded to the buffer, which reports whether it mutated the text. -/
inductive EditEvent where
  | ctrlS
  | altD
  | ctrlR
  | esc
  | fwd (mutates : Bool)
deriving DecidableEq, Repr

/-- Embeds one `edit_view` iteration (src/app.rs lines 141-189).  `writeRes`
is the result `Diary::write_to` would return for the Ctrl-S save.  The
forwarded case embeds line 179/182:
`self.saved = !self.entries.get_mut(&self.date).unwrap().input(event)`. -/
def editStep (e : EditEvent) (writeRes : Except DiaryError Unit) (s : AppSt) : AppSt :=
  match e with
  | .ctrlS => { s with saved := appSaveResult writeRes s.saved }
  | .altD => { s with mode := .SetDate }
  | .ctrlR => { s with mode := .Delete }
  | .esc => { s with mode := .Exit }
  | .fwd m => { s with saved := !m }

/-- Embeds the preamble of `App::run` (src/app.rs lines 432-434): before
the loop, insert a buffer for the selected date. -/
def runPreamble (s : AppSt) : AppSt :=
  { s with entryKeys := insertKey s.date s.entryKeys }

/-- Embeds the success branch of `open_file_rw` (src/app.rs lines 377-387):
replace the entries with the loaded ones, insert a buffer for
`Date::today()` — not for the selected date — and enter `Edit`.
(`self.path` is not assigned in this branch.) -/
def openFileOk (today : Date) (loadedKeys : List Date) (s : AppSt) : AppSt :=
  { s with mode := .Edit, entryKeys := insertKey today loadedKeys }

/-- Embeds the `WrongPassword` branch of `open_file_rw` (lines 389-394). -/
def openFileWrongPw (filename : String) (s : AppSt) : AppSt :=
  { s with path := filename, mode := .Password }

/-- Embeds `new_file` accepted (src/app.rs lines 130-139 and 401-406):
one empty buffer for the selected date, then `Edit`. -/
def newFileCreated (filename pw : String) (s : AppSt) : AppSt :=
  { s with path := filename, password := pw, entryKeys := [s.date], mode := .Edit }

/-- Embeds `try_load` success (src/app.rs lines 195-204): adopt the loaded
entries and insert a buffer for the selected date if absent. -/
def tryLoadOk (loadedKeys : List Date) (s : AppSt) : AppSt :=
  { s with entryKeys := insertKey s.date loadedKeys }

/-- Embeds the `Password` mode with a successful load (src/app.rs lines
220-231): store the credential, `try_load`, then `Edit`. -/
def passwordOk (pw : String) (loadedKeys : List Date) (s : AppSt) : AppSt :=
  { tryLoadOk loadedKeys { s with password := pw } with mode := .Edit }

/-- Embeds the `SetDate` arm of `run` (src/app.rs lines 440-447) together
with `set_date_ui` (lines 288-294): on confirm (`r = some d`) insert a
buffer for `d` and select it; on cancel keep everything; either way the
mode becomes `Edit`. -/
def setDateArm (r : Option Date) (s : AppSt) : AppSt :=
  match r with
  | some d => { s with entryKeys := insertKey d s.entryKeys, date := d, mode := .Edit }
  | none => { s with mode := .Edit }

/-- Embeds the accept branch of `delete` (src/app.rs lines 310-320):
remove the selected entry, run the forced date picker (result `r`), fall
back to `today` on cancel, and insert a buffer for the new selection. -/
def deleteAccept (today : Date) (r : Option Date) (s : AppSt) : AppSt :=
  let ks := s.entryKeys.erase s.date
  let nd := r.getD today
  { s with date := nd, entryKeys := insertKey nd ks, mode := .Edit }

/-- Embeds the decline branch of `pre_exit` (src/app.rs lines 250-254). -/
def preExitDecline (s : AppSt) : AppSt :=
  { s with mode := .Edit }

/-- Embeds `TryFrom<Arguments> for App` (src/args.rs) when no `--file` is
given: the preselected `--date` (if any) replaces `today`, the mode stays
`GetFile`, the entries are empty. -/
def initNoFile (today : Date) (argDate : Option Date) : AppSt :=
  { path := "", date := argDate.getD today, entryKeys := [], mode := .GetFile,
    saved := true, password := "" }

/-- Embeds `TryFrom<Arguments> for App` with `--file` and `--password` and
a successful direct load (src/args.rs lines 48-57, via `try_load`). -/
def initFilePwOk (today : Date) (argDate : Option Date) (file pw : String)
    (loadedKeys : List Date) : AppSt :=
  tryLoadOk loadedKeys
    { path := file, date := argDate.getD today, entryKeys := [], mode := .Edit,
      saved := true, password := pw }

/-- Embeds `TryFrom<Arguments> for App` with `--file` alone and a
successful empty-credential load (src/args.rs lines 24-41): the entries
come from the file plus a buffer for `Date::today()`. -/
def initFileNoPwOk (today : Date) (argDate : Option Date) (file : String)
    (loadedKeys : List Date) : AppSt :=
  { path := file, date := argDate.getD today, entryKeys := insertKey today loadedKeys,
    mode := .Edit, saved := true, password := "" }

/-! ### Helper lemmas -/

theorem digitsToNat_cons_zero (l : List Char) : digitsToNat ('0' :: l) = digitsToNat l := by
  simp [digitsToNat, digitVal]

theorem digitsToNat_replicate_zero (k : Nat) (l : List Char) :
    digitsToNat (List.replicate k '0' ++ l) = digitsToNat l := by
  induction k with
  | zero => simp
  | succ k ih => simpa [List.replicate_succ, digitsToNat_cons_zero] using ih

theorem digitsToNat_append_one (l : List Char) (c : Char) :
    digitsToNat (l ++ [c]) = digitsToNat l * 10 + digitVal c := by
  simp [digitsToNat, List.foldl_append]

theorem digitChar_isDigit : ∀ n, n < 10 → (Nat.digitChar n).isDigit = true := by decide

theorem digitVal_digitChar : ∀ n, n < 10 → digitVal (Nat.digitChar n) = n := by decide

theorem natDigitsAux_spec : ∀ fuel n, n < fuel →
    (natDigitsAux fuel n).all Char.isDigit = true ∧ natDigitsAux fuel n ≠ [] ∧
      digitsToNat (natDigitsAux fuel n) = n := by
  intro fuel
  induction fuel with
  | zero => intro n hn; omega
  | succ fuel ih =>
    intro n hn
    by_cases h : n < 10
    · refine ⟨by simp [natDigitsAux, h, digitChar_isDigit n h], by simp [natDigitsAux, h], ?_⟩
      simp only [natDigitsAux, if_pos h]
      simp [digitsToNat, digitVal_digitChar n h]
    · have hd : n / 10 < fuel := by omega
      obtain ⟨ha, hne, hv⟩ := ih (n / 10) hd
      have hm : n % 10 < 10 := by omega
      refine ⟨?_, by simp [natDigitsAux, h], ?_⟩
      · simp only [natDigitsAux, if_neg h, List.all_append, ha, Bool.true_and, List.all_cons,
          List.all_nil, Bool.and_true]
        exact digitChar_isDigit _ hm
      · simp only [natDigitsAux, if_neg h, digitsToNat_append_one, hv, digitVal_digitChar _ hm]
        omega

theorem natDigits_spec (n : Nat) :
    (natDigits n).all Char.isDigit = true ∧ natDigits n ≠ [] ∧ digitsToNat (natDigits n) = n :=
  natDigitsAux_spec (n + 1) n (Nat.lt_succ_self n)

theorem natDigitsAux_length : ∀ fuel w n, n < fuel → n < 10 ^ w → 1 ≤ w →
    (natDigitsAux fuel n).length ≤ w := by
  intro fuel
  induction fuel with
  | zero => intro w n h; omega
  | succ fuel ih =>
    intro w n hn hpow hw
    by_cases h : n < 10
    · simp [natDigitsAux, h]; omega
    · have hw2 : 2 ≤ w := by
        rcases Nat.lt_or_ge w 2 with hc | hc
        · interval_cases w
          simp [pow_one] at hpow
          omega
        · exact hc
      have hpow10 : 10 ^ w = 10 ^ (w - 1) * 10 := by
        rw [← pow_succ]
        congr 1
        omega
      have hdiv : n / 10 < 10 ^ (w - 1) := by
        rw [Nat.div_lt_iff_lt_mul (by norm_num)]
        omega
      have := ih (w - 1) (n / 10) (by omega) hdiv (by omega)
      simp [natDigitsAux, h, List.length_append]
      omega

theorem natDigits_length (w n : Nat) (hpow : n < 10 ^ w) (hw : 1 ≤ w) :
    (natDigits n).length ≤ w :=
  natDigitsAux_length (n + 1) w n (Nat.lt_succ_self n) hpow hw

theorem padDigits_all (w n : Nat) : (padDigits w n).all Char.isDigit = true := by
  have := (natDigits_spec n).1
  simp only [padDigits, List.all_append, this, Bool.and_true]
  induction (w - (natDigits n).length) with
  | zero => rfl
  | succ k ih => simp [List.replicate_succ, ih]

theorem padDigits_ne_nil (w n : Nat) : padDigits w n ≠ [] := by
  have h := (natDigits_spec n).2.1
  unfold padDigits
  intro hc
  exact h (List.append_eq_nil.mp hc).2

theorem padDigits_val (w n : Nat) : digitsToNat (padDigits w n) = n := by
  rw [padDigits, digitsToNat_replicate_zero]
  exact (natDigits_spec n).2.2

theorem padDigits_length (w n : Nat) (h : (natDigits n).length ≤ w) :
    (padDigits w n).length = w := by
  simp [padDigits]
  omega

theorem takeDigits_exact : ∀ (ds rest : List Char), ds.all Char.isDigit = true →
    takeDigits ds.length (ds ++ rest) = (ds, rest) := by
  intro ds
  induction ds with
  | nil => intro rest _; rfl
  | cons c t ih =>
    intro rest hall
    rw [List.all_cons, Bool.and_eq_true] at hall
    simp only [List.length_cons, List.cons_append, takeDigits, hall.1, if_true]
    change (c :: (takeDigits t.length (t ++ rest)).1, (takeDigits t.length (t ++ rest)).2) = _
    rw [ih rest hall.2]

theorem takeDigitsAll_exact : ∀ (ds : List Char), ds.all Char.isDigit = true →
    takeDigitsAll ds = (ds, []) := by
  intro ds
  induction ds with
  | nil => intro _; rfl
  | cons c t ih =>
    intro hall
    rw [List.all_cons, Bool.and_eq_true] at hall
    simp only [takeDigitsAll, hall.1, if_true]
    change (c :: (takeDigitsAll t).1, (takeDigitsAll t).2) = _
    rw [ih hall.2]

theorem scanNum_exact (w : Nat) (ds rest : List Char) (hw : ds.length = w)
    (hall : ds.all Char.isDigit = true) (hne : ds ≠ []) :
    scanNum w (ds ++ rest) = some (digitsToNat ds, rest) := by
  subst hw
  rw [scanNum, takeDigits_exact ds rest hall]
  cases ds with
  | nil => exact absurd rfl hne
  | cons c t => rfl

theorem scanNum_pad (w n : Nat) (rest : List Char) (h : (natDigits n).length ≤ w) :
    scanNum w (padDigits w n ++ rest) = some (n, rest) := by
  rw [scanNum_exact w _ rest (padDigits_length w n h) (padDigits_all w n) (padDigits_ne_nil w n),
    padDigits_val]

theorem scanNumAll_exact (ds : List Char) (hall : ds.all Char.isDigit = true)
    (hne : ds ≠ []) : scanNumAll ds = some (digitsToNat ds, []) := by
  rw [scanNumAll, takeDigitsAll_exact ds hall]
  cases ds with
  | nil => exact absurd rfl hne
  | cons c t => rfl

theorem all_head_not_sign (ds : List Char) (hall : ds.all Char.isDigit = true) :
    ds.head? ≠ some '-' ∧ ds.head? ≠ some '+' := by
  cases ds with
  | nil => simp
  | cons c t =>
    rw [List.all_cons, Bool.and_eq_true] at hall
    have hc := hall.1
    refine ⟨?_, ?_⟩ <;> simp only [List.head?_cons, ne_eq, Option.some.injEq] <;>
      intro h <;> subst h <;> exact absurd hc (by decide)

theorem scanYear_cons_neg (l : List Char) :
    scanYear ('-' :: l) = (scanNumAll l).map (fun p => (-(p.1 : Int), p.2)) := by
  rw [scanYear]
  simp

theorem scanYear_cons_pos (l : List Char) :
    scanYear ('+' :: l) = (scanNumAll l).map (fun p => ((p.1 : Int), p.2)) := by
  rw [scanYear]
  simp

theorem scanYear_digits (l : List Char) (hall : l.all Char.isDigit = true) :
    scanYear l = (scanNum 4 l).map (fun p => ((p.1 : Int), p.2)) := by
  have hs := all_head_not_sign l hall
  rw [scanYear, if_neg hs.1, if_neg hs.2]

theorem scanYear_format (y : Int) :
    scanYear (formatYearChars y) = some (y, []) := by
  by_cases h0 : 0 ≤ y ∧ y < 10000
  · have hnat : y.toNat < 10 ^ 4 := by omega
    have hlen := natDigits_length 4 y.toNat hnat (by omega)
    rw [formatYearChars, if_pos h0, scanYear_digits _ (padDigits_all 4 y.toNat)]
    have hsplit : padDigits 4 y.toNat = padDigits 4 y.toNat ++ [] := by simp
    rw [hsplit, scanNum_pad 4 y.toNat [] hlen]
    simp only [Option.map_some']
    congr 2
    omega
  · rw [formatYearChars, if_neg h0]
    by_cases hneg : y < 0
    · rw [if_pos hneg]
      rw [show ((['-'] : List Char) ++ padDigits 4 y.natAbs) = '-' :: padDigits 4 y.natAbs
        from rfl]
      rw [scanYear_cons_neg,
        scanNumAll_exact _ (padDigits_all 4 y.natAbs) (padDigits_ne_nil 4 y.natAbs),
        padDigits_val]
      simp only [Option.map_some']
      congr 2
      omega
    · rw [if_neg hneg]
      rw [show ((['+'] : List Char) ++ padDigits 4 y.natAbs) = '+' :: padDigits 4 y.natAbs
        from rfl]
      rw [scanYear_cons_pos,
        scanNumAll_exact _ (padDigits_all 4 y.natAbs) (padDigits_ne_nil 4 y.natAbs),
        padDigits_val]
      simp only [Option.map_some']
      congr 2
      omega

theorem expectChar_cons (c : Char) (l : List Char) : expectChar c (c :: l) = some l := by
  simp [expectChar]

theorem daysInMonth_bounds (y : Int) (m : Nat) :
    28 ≤ daysInMonth y m ∧ daysInMonth y m ≤ 31 := by
  unfold daysInMonth
  split
  · split <;> omega
  · split <;> omega

theorem dateValid_iff (d : Date) : dateValid d = true ↔
    (minYear ≤ d.year ∧ d.year ≤ maxYear ∧ 1 ≤ d.month ∧ d.month ≤ 12 ∧
      1 ≤ d.day ∧ d.day ≤ daysInMonth d.year d.month) := by
  simp [dateValid, Bool.and_eq_true, decide_eq_true_eq, and_assoc]

theorem dateParse_dateFormat (d : Date) (h : dateValid d = true) :
    dateParse (dateFormat d) = some d := by
  obtain ⟨hy1, hy2, hm1, hm2, hd1, hd2⟩ := (dateValid_iff d).mp h
  have hdm := daysInMonth_bounds d.year d.month
  have hdlen : (natDigits d.day).length ≤ 2 := natDigits_length 2 d.day (by omega) (by omega)
  have hmlen : (natDigits d.month).length ≤ 2 := natDigits_length 2 d.month (by omega) (by omega)
  show parseDateChars (formatDateChars d) = some d
  rw [parseDateChars, formatDateChars, scanNum_pad 2 d.day _ hdlen]
  simp only [Option.bind_eq_bind, Option.some_bind]
  rw [expectChar_cons]
  simp only [Option.some_bind]
  rw [scanNum_pad 2 d.month _ hmlen]
  simp only [Option.some_bind]
  rw [expectChar_cons]
  simp only [Option.some_bind]
  rw [scanYear_format d.year]
  simp only [Option.some_bind]
  have heta : (⟨d.year, d.month, d.day⟩ : Date) = d := rfl
  rw [heta]
  simp [h]

theorem dateValid_mk (y : Int) (m dd : Nat) : dateValid ⟨y, m, dd⟩ = true ↔
    (minYear ≤ y ∧ y ≤ maxYear ∧ 1 ≤ m ∧ m ≤ 12 ∧ 1 ≤ dd ∧ dd ≤ daysInMonth y m) :=
  dateValid_iff ⟨y, m, dd⟩

theorem daysInMonth_one (y : Int) : daysInMonth y 1 = 31 := rfl

theorem daysInMonth_twelve (y : Int) : daysInMonth y 12 = 31 := rfl

theorem checkedAddDays1_valid (d : Date) (h : dateValid d = true) :
    ∀ d', checkedAddDays1 d = some d' → dateValid d' = true := by
  obtain ⟨y, m, dd⟩ := d
  rw [dateValid_mk] at h
  intro d' he
  simp only [checkedAddDays1] at he
  split_ifs at he with c1 c2 c3
  · cases he
    rw [dateValid_mk]
    omega
  · cases he
    rw [dateValid_mk]
    have := daysInMonth_bounds y (m + 1)
    omega
  · cases he
    rw [dateValid_mk]
    have := daysInMonth_one (y + 1)
    omega

theorem checkedSubDays1_valid (d : Date) (h : dateValid d = true) :
    ∀ d', checkedSubDays1 d = some d' → dateValid d' = true := by
  obtain ⟨y, m, dd⟩ := d
  rw [dateValid_mk] at h
  intro d' he
  simp only [checkedSubDays1] at he
  split_ifs at he with c1 c2 c3
  · cases he
    rw [dateValid_mk]
    omega
  · cases he
    rw [dateValid_mk]
    have := daysInMonth_bounds y (m - 1)
    omega
  · cases he
    rw [dateValid_mk]
    have := daysInMonth_twelve (y - 1)
    omega

theorem checkedAddMonths1_valid (d : Date) (h : dateValid d = true) :
    ∀ d', checkedAddMonths1 d = some d' → dateValid d' = true := by
  obtain ⟨y, m, dd⟩ := d
  rw [dateValid_mk] at h
  intro d' he
  simp only [checkedAddMonths1] at he
  split_ifs at he with c1 c2
  · cases he
    rw [dateValid_mk]
    have := daysInMonth_bounds y (m + 1)
    omega
  · cases he
    rw [dateValid_mk]
    have := daysInMonth_one (y + 1)
    omega

theorem checkedSubMonths1_valid (d : Date) (h : dateValid d = true) :
    ∀ d', checkedSubMonths1 d = some d' → dateValid d' = true := by
  obtain ⟨y, m, dd⟩ := d
  rw [dateValid_mk] at h
  intro d' he
  simp only [checkedSubMonths1] at he
  split_ifs at he with c1 c2
  · cases he
    rw [dateValid_mk]
    have := daysInMonth_bounds y (m - 1)
    omega
  · cases he
    rw [dateValid_mk]
    have := daysInMonth_twelve (y - 1)
    omega

theorem checkedAddMonths12_valid (d : Date) (h : dateValid d = true) :
    ∀ d', checkedAddMonths12 d = some d' → dateValid d' = true := by
  obtain ⟨y, m, dd⟩ := d
  rw [dateValid_mk] at h
  intro d' he
  simp only [checkedAddMonths12] at he
  split_ifs at he with c1
  cases he
  rw [dateValid_mk]
  have := daysInMonth_bounds (y + 1) m
  omega

theorem checkedSubMonths12_valid (d : Date) (h : dateValid d = true) :
    ∀ d', checkedSubMonths12 d = some d' → dateValid d' = true := by
  obtain ⟨y, m, dd⟩ := d
  rw [dateValid_mk] at h
  intro d' he
  simp only [checkedSubMonths12] at he
  split_ifs at he with c1
  cases he
  rw [dateValid_mk]
  have := daysInMonth_bounds (y - 1) m
  omega

theorem incAdjusted_valid (s : DateSelection) (h : dateValid s.date = true) :
    ∀ d', incAdjusted s = some d' → dateValid d' = true := by
  obtain ⟨d, sel⟩ := s
  intro d' he
  cases sel <;> simp only [incAdjusted] at he
  · exact checkedAddDays1_valid d h d' he
  · exact checkedAddMonths1_valid d h d' he
  · exact checkedAddMonths12_valid d h d' he

theorem decAdjusted_valid (s : DateSelection) (h : dateValid s.date = true) :
    ∀ d', decAdjusted s = some d' → dateValid d' = true := by
  obtain ⟨d, sel⟩ := s
  intro d' he
  cases sel <;> simp only [decAdjusted] at he
  · exact checkedSubDays1_valid d h d' he
  · exact checkedSubMonths1_valid d h d' he
  · exact checkedSubMonths12_valid d h d' he

theorem parseEntriesList_serialize (d : List (Date × EntryText))
    (h : ∀ x ∈ d, dateValid x.1 = true) :
    parseEntriesList (serializeEntries d) = some d := by
  induction d with
  | nil => rfl
  | cons x t ih =>
    obtain ⟨k, v⟩ := x
    have hk : dateValid k = true := h (k, v) (List.mem_cons_self _ _)
    have ht : ∀ x ∈ t, dateValid x.1 = true := fun x hx => h x (List.mem_cons_of_mem _ hx)
    simp only [serializeEntries, List.map_cons, parseEntriesList, dateParse_dateFormat k hk]
    have hser : List.map (fun p : Date × EntryText => (dateFormat p.1, p.2)) t
        = serializeEntries t := rfl
    rw [hser, ih ht]

theorem updateFs_same (fs : String → FileState) (path : String) (st : FileState) :
    updateFs fs path st path = st := by
  simp [updateFs]

theorem mem_insertKey_self (d : Date) (ks : List Date) : d ∈ insertKey d ks := by
  rw [insertKey]
  split
  · assumption
  · exact List.mem_cons_self _ _

/-! ### The claims -/

/-- C1 (corrected), counterexample: in the Edit state with unsaved changes
(`saved = false`), forwarding an input event that the buffer reports as
non-mutating sets `saved` back to `true` — the unsaved flag is cleared by
an event that is not a confirmed-success save, because line 179/182 of
src/app.rs assigns `saved = !input(event)` unconditionally. -/
theorem C1_counterexample :
    (editStep (.fwd false) (.error .NotAccessible)
      { path := "", date := ⟨2024, 1, 1⟩, entryKeys := [], mode := .Edit,
        saved := false, password := "" }).saved = true := rfl

/-- C1 (amended): in the Edit state the unsaved flag mirrors the mutation
status of the most recent forwarded input event — a mutating event sets it
true and a non-mutating forwarded event clears it; a save-request clears
it exactly on confirmed success (`saved` becomes `saved || write ok`), and
the intercepted control events (date-change, delete, exit) leave it
unchanged. -/
theorem C1_amended (s : AppSt) (m : Bool) (r : Except DiaryError Unit) :
    ((editStep (.fwd m) r s).saved = !m) ∧
    ((editStep .ctrlS r s).saved = (s.saved || r.isOk)) ∧
    ((editStep .altD r s).saved = s.saved) ∧
    ((editStep .ctrlR r s).saved = s.saved) ∧
    ((editStep .esc r s).saved = s.saved) := by
  refine ⟨rfl, ?_, rfl, rfl, rfl⟩
  show appSaveResult r s.saved = (s.saved || r.isOk)
  rw [appSaveResult]
  cases hr : r.isOk <;> simp [hr]

/-- C2 (confirmed): writing a diary document with `write_to(path, p)` and
reading it back with `read_jrnl(path, p)` under the same non-empty
credential yields the document unchanged (the same list of
(date, text) pairs). -/
theorem C2_write_read_roundtrip (fs : String → FileState)
    (d : List (Date × EntryText)) (path pw : String) (_hpw : pw ≠ "")
    (h : ∀ x ∈ d, dateValid x.1 = true) :
    readJrnl (writeTo fs d path pw none none).1 path pw = .ok d := by
  show readJrnl (updateFs fs path (.container pw (.entriesObj (serializeEntries d)))) path pw
      = .ok d
  rw [readJrnl, updateFs_same]
  simp [parseEntriesList_serialize d h]

theorem C2_write_read_roundtrip_witness :
    ("secret123" ≠ "" ∧
      (∀ x ∈ [((⟨2024, 1, 1⟩ : Date), "Hello".data)], dateValid x.1 = true)) ∧
    readJrnl
        (writeTo (fun _ => FileState.absent) [((⟨2024, 1, 1⟩ : Date), "Hello".data)]
          "a.jrnl" "secret123" none none).1
        "a.jrnl" "secret123" = .ok [((⟨2024, 1, 1⟩ : Date), "Hello".data)] :=
  ⟨⟨by decide, by decide⟩,
    C2_write_read_roundtrip (fun _ => FileState.absent) _ "a.jrnl" "secret123"
      (by decide) (by decide)⟩

/-- C3 (code bug), evaluation at the failing input: a buffer whose single
line is "Hello" is converted to the persisted text "Hello\n" (a newline is
appended after every line, the last included), and converting that text
back yields the two-line buffer ["Hello", ""] — not the original
single-line buffer, contradicting newline-preservation. -/
theorem C3_code_eval :
    entriesToDiary [(⟨2024, 1, 1⟩, ["Hello".data])]
        = [(⟨2024, 1, 1⟩, "Hello\n".data)] ∧
    diaryToEntries [(⟨2024, 1, 1⟩, "Hello\n".data)]
        = [(⟨2024, 1, 1⟩, ["Hello".data, []])] ∧
    "Hello\n".data ≠ "Hello".data := by
  decide

/-- C4 (corrected), counterexample: start with `--date 01-01-2024` and no
`--file` on a day `today = 02-01-2024`; `run`'s preamble inserts the
selected date, but the GetFile success branch then replaces the entries
with the loaded map (here empty) plus an entry for `today()` only, and
enters Edit with the selected date 01-01-2024 absent from the entries —
the Edit loop's lookup `self.entries[&self.date]` fails. -/
theorem C4_counterexample :
    ((openFileOk ⟨2024, 1, 2⟩ []
        (runPreamble (initNoFile ⟨2024, 1, 2⟩ (some ⟨2024, 1, 1⟩)))).mode = AppMode.Edit) ∧
    ¬((openFileOk ⟨2024, 1, 2⟩ []
        (runPreamble (initNoFile ⟨2024, 1, 2⟩ (some ⟨2024, 1, 1⟩)))).date ∈
      (openFileOk ⟨2024, 1, 2⟩ []
        (runPreamble (initNoFile ⟨2024, 1, 2⟩ (some ⟨2024, 1, 1⟩)))).entryKeys) := by
  decide

/-- C4 (amended): every transition that enters the Edit state ensures a
buffer for the currently selected date — the run preamble, file creation,
the Password flow, a direct `--file --password` load, SetDate, Delete, and
the returns to Edit that keep the map (which preserve the invariant) —
EXCEPT the GetFile successful-load branch, which replaces the entries and
guarantees a buffer for `today()` rather than for the selected date (the
startup `--file` load does the same but is followed by the preamble);
input events forwarded in Edit change neither the selected date nor the
key set. -/
theorem C4_amended (today : Date) (r : Option Date) (ks : List Date)
    (fn pw : String) (s : AppSt) (e : EditEvent) (wr : Except DiaryError Unit)
    (argDate : Option Date) (lk : List Date) :
    ((runPreamble s).date ∈ (runPreamble s).entryKeys) ∧
    ((newFileCreated fn pw s).date ∈ (newFileCreated fn pw s).entryKeys) ∧
    ((passwordOk pw ks s).date ∈ (passwordOk pw ks s).entryKeys) ∧
    ((tryLoadOk ks s).date ∈ (tryLoadOk ks s).entryKeys) ∧
    ((deleteAccept today r s).date ∈ (deleteAccept today r s).entryKeys) ∧
    ((initFilePwOk today argDate fn pw lk).date ∈
      (initFilePwOk today argDate fn pw lk).entryKeys) ∧
    (today ∈ (initFileNoPwOk today argDate fn lk).entryKeys) ∧
    (s.date ∈ s.entryKeys → (setDateArm r s).date ∈ (setDateArm r s).entryKeys) ∧
    (s.date ∈ s.entryKeys → (preExitDecline s).date ∈ (preExitDecline s).entryKeys) ∧
    (today ∈ (openFileOk today ks s).entryKeys) ∧
    ((editStep e wr s).date = s.date ∧ (editStep e wr s).entryKeys = s.entryKeys) := by
  refine ⟨mem_insertKey_self _ _, List.mem_cons_self _ _, mem_insertKey_self _ _,
    mem_insertKey_self _ _, mem_insertKey_self _ _, mem_insertKey_self _ _,
    mem_insertKey_self _ _, ?_, fun h => h, mem_insertKey_self _ _, ?_⟩
  · intro h
    cases r with
    | none => exact h
    | some dd => exact mem_insertKey_self _ _
  · cases e <;> exact ⟨rfl, rfl⟩

theorem C4_amended_witness :
    ((⟨"", ⟨2024, 1, 1⟩, [⟨2024, 1, 1⟩], .Edit, true, ""⟩ : AppSt).date ∈
      (⟨"", ⟨2024, 1, 1⟩, [⟨2024, 1, 1⟩], .Edit, true, ""⟩ : AppSt).entryKeys) ∧
    ((setDateArm none (⟨"", ⟨2024, 1, 1⟩, [⟨2024, 1, 1⟩], .Edit, true, ""⟩ : AppSt)).date ∈
      (setDateArm none (⟨"", ⟨2024, 1, 1⟩, [⟨2024, 1, 1⟩], .Edit, true, ""⟩ : AppSt)).entryKeys) :=
  ⟨by decide,
    (C4_amended ⟨2024, 1, 2⟩ none [] "" ""
      (⟨"", ⟨2024, 1, 1⟩, [⟨2024, 1, 1⟩], .Edit, true, ""⟩ : AppSt) .esc (.ok ()) none
      []).2.2.2.2.2.2.2.1 (by decide)⟩

/-- C5 (code bug), evaluation: `check_format` reports UNRECOGNIZED
(`false`) for a path whose empty-credential load yields `WrongPassword`
(a well-formed container saved under the password "x"), and RECOGNIZED
(`true`) for a path whose load yields a header-level `InvalidFormat` —
the exact opposite of the specified classification: the predicate
`!(e == WrongPassword)` inverts the intended `e == WrongPassword`. -/
theorem C5_code_eval :
    checkFormat (fun _ => FileState.container "x" (.entriesObj [])) "a" = false ∧
    checkFormat (fun _ => FileState.rawInvalid false) "a" = true := by
  constructor <;> rfl

/-- C6 (corrected), counterexample: an I/O failure of kind `NotFound`
during `File::create` (for instance a missing parent directory) is mapped
by `write_to` to `NotFound`, not to `NotAccessible` as the claim states,
because the shared `From<io::Error>` conversion inspects the kind. -/
theorem C6_counterexample :
    (writeTo (fun _ => FileState.absent) [] "a" "pw" (some .notFound) none).2 =
      .error DiaryError.NotFound ∧
    DiaryError.NotFound ≠ DiaryError.NotAccessible :=
  ⟨rfl, by decide⟩

/-- C6 (amended): when a save fails with an I/O error during create or
write, `write_to` returns the failure mapped through the shared io-error
conversion — `NotAccessible` for every error kind except `NotFound`,
which maps to `NotFound` — so the error is surfaced to its caller
`App::save` rather than discarded inside `write_to`, and `App::save`
leaves the unsaved-changes flag unchanged (hence still set) on any
failure. -/
theorem C6_amended (fs : String → FileState) (d : List (Date × EntryText))
    (path pw : String) (k : IoKind) (dumpE : Option IoKind) (saved : Bool) :
    ((writeTo fs d path pw (some k) dumpE).2 = .error (ioToDiaryError k)) ∧
    ((writeTo fs d path pw none (some k)).2 = .error (ioToDiaryError k)) ∧
    (k ≠ .notFound → ioToDiaryError k = .NotAccessible) ∧
    (∀ e : DiaryError, appSaveResult (.error e) saved = saved) := by
  refine ⟨rfl, rfl, ?_, fun e => rfl⟩
  cases k
  · intro hk
    exact absurd rfl hk
  · intro _
    rfl
  · intro _
    rfl

theorem C6_amended_witness :
    (IoKind.permissionDenied ≠ IoKind.notFound) ∧
    ioToDiaryError IoKind.permissionDenied = DiaryError.NotAccessible :=
  ⟨by decide,
    (C6_amended (fun _ => FileState.absent) [] "a" "p" .permissionDenied none
      true).2.2.1 (by decide)⟩

/-- C7 (confirmed): `read_jrnl` classifies every failure into the closed
five-variant `DiaryError` taxonomy (the result type itself admits no other
error): a nonexistent path yields `NotFound`; another open-time I/O
failure yields `NotAccessible`; a zero-byte, truncated or
unrecognized-header file yields `InvalidFormat`; a file above the size cap
yields `OutOfRangeSize`, independently of the credential (no decryption is
attempted); and an authenticated-decryption tag mismatch — wrong
credential on a well-formed container, or corrupted ciphertext — yields
`WrongPassword`, never a success. -/
theorem C7_error_taxonomy (fs : String → FileState) (path q : String) :
    (fs path = .absent → readJrnl fs path q = .error .NotFound) ∧
    (fs path = .inaccessible → readJrnl fs path q = .error .NotAccessible) ∧
    (∀ t, fs path = .rawInvalid t → readJrnl fs path q = .error .InvalidFormat) ∧
    (fs path = .rawTooLarge →
      readJrnl fs path q = .error .OutOfRangeSize ∧
      ∀ q2, readJrnl fs path q = readJrnl fs path q2) ∧
    (∀ pw payload, fs path = .container pw payload → q ≠ pw →
      readJrnl fs path q = .error .WrongPassword) ∧
    (∀ pw, fs path = .corrupted pw → readJrnl fs path q = .error .WrongPassword) := by
  refine ⟨?_, ?_, ?_, ?_, ?_, ?_⟩
  · intro h
    rw [readJrnl, h]
    rfl
  · intro h
    rw [readJrnl, h]
    rfl
  · intro t h
    rw [readJrnl, h]
    cases t <;> rfl
  · intro h
    refine ⟨by rw [readJrnl, h]; rfl, ?_⟩
    intro q2
    rw [readJrnl, h]
    rw [readJrnl, h]
  · intro pw payload h hq
    rw [readJrnl, h]
    simp only [if_neg hq]
    rfl
  · intro pw h
    rw [readJrnl, h]
    rfl

theorem C7_error_taxonomy_witness :
    ((fun _ : String => FileState.rawTooLarge) "a" = FileState.rawTooLarge) ∧
    readJrnl (fun _ => FileState.rawTooLarge) "a" "" = .error .OutOfRangeSize :=
  ⟨rfl, ((C7_error_taxonomy (fun _ => FileState.rawTooLarge) "a" "").2.2.2.1 rfl).1⟩

/-- C8 (confirmed): for every representable date `d`, parsing the
canonical string produced by formatting `d` (the strict DD-MM-YYYY
Display form) succeeds and returns exactly `d`. -/
theorem C8_parse_format_roundtrip (d : Date) (h : dateValid d = true) :
    dateParse (dateFormat d) = some d :=
  dateParse_dateFormat d h

theorem C8_parse_format_roundtrip_witness :
    dateValid ⟨2024, 1, 1⟩ = true ∧
    dateParse (dateFormat ⟨2024, 1, 1⟩) = some ⟨2024, 1, 1⟩ :=
  ⟨by decide, C8_parse_format_roundtrip ⟨2024, 1, 1⟩ (by decide)⟩

/-- C9 (corrected), counterexample: "1-1-2024" parses successfully (to
January 1st 2024), because chrono's parsing of numeric fields does not
require zero padding — contradicting the claim that every string outside
the strict zero-padded form fails. -/
theorem C9_counterexample : dateParse "1-1-2024" = some ⟨2024, 1, 1⟩ := by
  decide

/-- C9 (amended): date parsing requires the `-` separators and the
day-month-year field order, and rejects "2024-01-01" and "01/01/2024",
but it does not require zero padding: "1-1-2024" parses successfully to
01-01-2024. -/
theorem C9_amended :
    dateParse "1-1-2024" = some ⟨2024, 1, 1⟩ ∧
    dateParse "2024-01-01" = none ∧
    dateParse "01/01/2024" = none := by
  refine ⟨by decide, by decide, by decide⟩

/-- C10 (confirmed): the date picker's `increment_selected` and
`decrement_selected` are total functions over day, month and year fields
(modelled as such; the Rust code calls only `checked_*` chrono operations
followed by `unwrap_or`): starting from any valid date they produce a
valid date, whenever the checked adjustment reports out-of-range they
leave the date unchanged, and they never change which field is
selected. -/
theorem C10_picker_total_saturating (s : DateSelection)
    (h : dateValid s.date = true) :
    dateValid (incrementSelected s).date = true ∧
    dateValid (decrementSelected s).date = true ∧
    (incAdjusted s = none → (incrementSelected s).date = s.date) ∧
    (decAdjusted s = none → (decrementSelected s).date = s.date) ∧
    (incrementSelected s).selection = s.selection ∧
    (decrementSelected s).selection = s.selection := by
  refine ⟨?_, ?_, ?_, ?_, rfl, rfl⟩
  · rw [incrementSelected]
    cases he : incAdjusted s with
    | none => exact h
    | some d' => exact incAdjusted_valid s h d' he
  · rw [decrementSelected]
    cases he : decAdjusted s with
    | none => exact h
    | some d' => exact decAdjusted_valid s h d' he
  · intro he
    rw [incrementSelected, he]
    rfl
  · intro he
    rw [decrementSelected, he]
    rfl

theorem C10_picker_total_saturating_witness :
    dateValid (⟨⟨2024, 2, 29⟩, .year⟩ : DateSelection).date = true ∧
    dateValid (incrementSelected ⟨⟨2024, 2, 29⟩, .year⟩).date = true :=
  ⟨by decide, (C10_picker_total_saturating ⟨⟨2024, 2, 29⟩, .year⟩ (by decide)).1⟩

end Journalr
